import Mathlib

/-
Verification of the dbt-bq-sourcegen reconciliation engine.

The definitions below are a shallow embedding of the repository's code:
  * logic/merge_strategy.py  (merge_columns, merge_table, merge_sources,
    merge_source_file)
  * io/yaml_handler.py       (_serialize_source_file, _parse_source_file)
  * cli.py                   (the apply command's update path)
The entity model (types/dbt.py, types/bigquery.py) and the construction
helpers (logic/source_builder.py) are not part of the given sources; they are
modelled from the design document (sections 3, 4.1 and 4.2), as marked on the
individual definitions.

Python idioms are made explicit:
  * optional values are Option;
  * `a or b` on strings (empty string falsy) is pyOrStr / pyOrOptStr;
  * a dict built by inserting elements in list order and then queried with
    `d.get(k)` / `k in d` is lookupLastBy (last write wins) / an any-test;
  * loops that append to a list are foldl with list append.
-/

set_option maxHeartbeats 1000000

namespace DbtBqSourcegen

/-- Opaque user-authored metadata mapping (an ordered key-value blob). -/
abbrev MetaMap := List (String × String)

/-- Opaque ordered list of test specifications. -/
abbrev TestList := List String

/-- Modelled from the spec: remote ColumnDescriptor (types/bigquery.py is not in
the sources): name, declared type, optional remote-supplied description. -/
structure BigQueryColumn where
  name : String
  field_type : String
  description : Option String
deriving DecidableEq, Repr

/-- Modelled from the spec: remote TableDescriptor (types/bigquery.py is not in
the sources): table id, optional description, ordered columns. -/
structure BigQueryTable where
  table_id : String
  description : Option String
  columns : List BigQueryColumn
deriving DecidableEq, Repr

/-- Modelled from the spec: document Column (types/dbt.py is not in the
sources): name, optional data type, description (defaults to empty string,
never null), optional metadata, optional tests. -/
structure DbtColumn where
  name : String
  data_type : Option String
  description : String
  meta : Option MetaMap
  tests : Option TestList
deriving DecidableEq, Repr

/-- Modelled from the spec: document Table (types/dbt.py is not in the
sources): name, optional identifier override, description, ordered columns,
optional metadata, optional tests. -/
structure DbtTable where
  name : String
  identifier : Option String
  description : String
  columns : List DbtColumn
  meta : Option MetaMap
  tests : Option TestList
deriving DecidableEq, Repr

/-- Modelled from the spec: document Source (types/dbt.py is not in the
sources): name, optional database, optional schema name, description,
ordered tables, optional metadata. -/
structure DbtSource where
  name : String
  database : Option String
  schema_name : Option String
  description : String
  tables : List DbtTable
  meta : Option MetaMap
deriving DecidableEq, Repr

/-- Modelled from the spec: SourceDocument (types/dbt.py is not in the
sources): version integer and ordered sources. -/
structure DbtSourceFile where
  version : Int
  sources : List DbtSource
deriving DecidableEq, Repr

/-- Python `a or b` on strings: the empty string is the only falsy string. -/
def pyOrStr (a b : String) : String :=
  if a = "" then b else a

/-- Python `a or b` where `a` is an optional string: `None` and `""` are falsy. -/
def pyOrOptStr (a : Option String) (b : String) : String :=
  match a with
  | some s => pyOrStr s b
  | none => b

/-- Models `{key(x): x for x in l}.get(k)`: the element whose key matches wins
by last write, so the last element of `l` satisfying `p` is returned. -/
def lookupLastBy {α : Type} (p : α → Bool) : List α → Option α
  | [] => none
  | x :: xs =>
    match lookupLastBy p xs with
    | some y => some y
    | none => if p x then some x else none

/-- Modelled from the spec: `build_column_from_bigquery`
(logic/source_builder.py is not in the sources). Spec 4.1: a column present
only remotely is built purely from the remote descriptor - data type from
remote, description from remote (or empty), metadata/tests absent. -/
def build_column_from_bigquery (bq_col : BigQueryColumn) : DbtColumn :=
  { name := bq_col.name
    data_type := some bq_col.field_type
    description := pyOrOptStr bq_col.description ""
    meta := none
    tests := none }

/-- Modelled from the spec: `build_table_from_bigquery`
(logic/source_builder.py is not in the sources). Spec 4.2: name = table id,
identifier unset, description = remote description or empty, columns built
fresh from each ColumnDescriptor, metadata/tests absent. -/
def build_table_from_bigquery (bq_table : BigQueryTable) : DbtTable :=
  { name := bq_table.table_id
    identifier := none
    description := pyOrOptStr bq_table.description ""
    columns := bq_table.columns.map build_column_from_bigquery
    meta := none
    tests := none }

/-- Body of the remote-column loop in `merge_columns`
(merge_strategy.py lines 31-46): the yaml column is looked up in the
name-keyed dict of existing columns. -/
def mergeColumnOne (yaml_columns : List DbtColumn) (bq_col : BigQueryColumn) : DbtColumn :=
  match lookupLastBy (fun c => c.name == bq_col.name) yaml_columns with
  | some yaml_col =>
    { name := bq_col.name
      data_type := some bq_col.field_type
      description := pyOrStr yaml_col.description (pyOrOptStr bq_col.description "")
      meta := yaml_col.meta
      tests := yaml_col.tests }
  | none => build_column_from_bigquery bq_col

/-- Membership in `bq_column_map` (a dict keyed by column name). -/
def bqHasColumn (bq_columns : List BigQueryColumn) (n : String) : Bool :=
  bq_columns.any (fun b => b.name == n)

/-- merge_strategy.py `merge_columns`: update existing columns and add new
ones in BigQuery order, then (unless removing deleted) keep yaml-only
columns. -/
def merge_columns (bq_columns : List BigQueryColumn) (yaml_columns : List DbtColumn)
    (remove_deleted : Bool) : List DbtColumn :=
  let merged := bq_columns.foldl
    (fun acc bq_col => acc ++ [mergeColumnOne yaml_columns bq_col]) []
  if remove_deleted then merged
  else yaml_columns.foldl
    (fun acc yaml_col =>
      if bqHasColumn bq_columns yaml_col.name then acc else acc ++ [yaml_col])
    merged

/-- merge_strategy.py `merge_table`. The Python guard
`yaml_table.columns if yaml_table.columns else []` is the identity here
because `columns` is a plain list. -/
def merge_table (bq_table : BigQueryTable) (yaml_table : Option DbtTable)
    (remove_deleted_columns : Bool) : DbtTable :=
  match yaml_table with
  | none => build_table_from_bigquery bq_table
  | some yt =>
    { name := yt.name
      identifier := yt.identifier
      description := pyOrStr yt.description (pyOrOptStr bq_table.description "")
      columns := merge_columns bq_table.columns yt.columns remove_deleted_columns
      meta := yt.meta
      tests := yt.tests }

/-- Membership in `bq_table_map` (a dict keyed by table id). -/
def bqHasTable (bq_tables : List BigQueryTable) (n : String) : Bool :=
  bq_tables.any (fun b => b.table_id == n)

/-- Body of the remote-table loop in `merge_sources`
(merge_strategy.py lines 134-137): the yaml table is looked up by its name
equaling the remote table id. -/
def mergeTableOne (yaml_tables : List DbtTable) (remove_deleted_columns : Bool)
    (bq_table : BigQueryTable) : DbtTable :=
  merge_table bq_table
    (lookupLastBy (fun t => t.name == bq_table.table_id) yaml_tables)
    remove_deleted_columns

/-- merge_strategy.py `merge_sources`. The synthesized source for the
no-prior-source case carries the dataclass defaults of types/dbt.py
(description empty, meta absent), modelled from the spec's data model. -/
def merge_sources (bq_tables : List BigQueryTable) (yaml_source : Option DbtSource)
    (source_name project_id dataset_id : String)
    (remove_deleted_tables remove_deleted_columns : Bool) : DbtSource :=
  let ys : DbtSource :=
    match yaml_source with
    | none =>
      { name := source_name
        database := some project_id
        schema_name := some dataset_id
        description := ""
        tables := []
        meta := none }
    | some s => s
  let merged := bq_tables.foldl
    (fun acc bq_table =>
      acc ++ [mergeTableOne ys.tables remove_deleted_columns bq_table]) []
  let all_tables :=
    if remove_deleted_tables then merged
    else ys.tables.foldl
      (fun acc yt => if bqHasTable bq_tables yt.name then acc else acc ++ [yt])
      merged
  { name := ys.name
    database := some (pyOrOptStr ys.database project_id)
    schema_name := some (pyOrOptStr ys.schema_name dataset_id)
    description := ys.description
    tables := all_tables
    meta := ys.meta }

/-- The source-selection test in `merge_source_file` (line 186): name equals
the target source name, or schema name equals the dataset id (a `None`
schema name never equals a string in Python). -/
def sourceMatches (source_name dataset_id : String) (s : DbtSource) : Bool :=
  s.name == source_name || s.schema_name == some dataset_id

/-- merge_strategy.py `merge_source_file`: scan the existing sources, keeping
the matching one (overwritten on every later match) and accumulating the
non-matching ones, then merge and re-append. -/
def merge_source_file (bq_tables : List BigQueryTable) (yaml_file : Option DbtSourceFile)
    (source_name project_id dataset_id : String)
    (remove_deleted_tables remove_deleted_columns : Bool) : DbtSourceFile :=
  let yf : DbtSourceFile :=
    match yaml_file with
    | none => { version := 2, sources := [] }
    | some f => f
  let scan := yf.sources.foldl
    (fun (acc : Option DbtSource × List DbtSource) source =>
      if sourceMatches source_name dataset_id source then (some source, acc.2)
      else (acc.1, acc.2 ++ [source]))
    (none, [])
  let merged_source := merge_sources bq_tables scan.1 source_name project_id dataset_id
    remove_deleted_tables remove_deleted_columns
  { version := yf.version
    sources := scan.2 ++ [merged_source] }

/-- cli.py apply (update path): reuse the name of the first existing source
whose schema name or name equals the dataset, else use the dataset name. -/
def applySourceName (existing_file : Option DbtSourceFile) (schema : String) : String :=
  match existing_file with
  | some f =>
    match f.sources.find? (fun s => s.schema_name == some schema || s.name == schema) with
    | some s => s.name
    | none => schema
  | none => schema

/-- cli.py apply (update path, lines 81-89): the merge call with the flag
wiring `remove_deleted_tables=remove_deleted` and
`remove_deleted_columns=remove_deleted and sync_columns`. -/
def applyUpdate (bq_dataset_tables : List BigQueryTable)
    (existing_file : Option DbtSourceFile) (project_id schema : String)
    (sync_columns remove_deleted : Bool) : DbtSourceFile :=
  merge_source_file bq_dataset_tables existing_file
    (applySourceName existing_file schema) project_id schema
    remove_deleted (remove_deleted && sync_columns)

/-! ### Structural lemmas about the loops of the merge engine -/

theorem foldl_append_eq_map {α β : Type} (f : α → β) (l : List α) (init : List β) :
    l.foldl (fun acc x => acc ++ [f x]) init = init ++ l.map f := by
  induction l generalizing init with
  | nil => simp
  | cons x xs ih => simp [List.foldl_cons, ih]

theorem foldl_keep_eq_filter {α : Type} (p : α → Bool) (l : List α) (init : List α) :
    l.foldl (fun acc x => if p x then acc else acc ++ [x]) init
      = init ++ l.filter (fun x => !p x) := by
  induction l generalizing init with
  | nil => simp
  | cons x xs ih =>
    by_cases h : p x = true
    · simp [List.foldl_cons, h, ih]
    · simp only [Bool.not_eq_true] at h
      simp [List.foldl_cons, h, ih]

theorem lookupLastBy_eq_none {α : Type} (p : α → Bool) (l : List α) :
    lookupLastBy p l = none ↔ ∀ x ∈ l, p x = false := by
  induction l with
  | nil => simp [lookupLastBy]
  | cons x xs ih =>
    simp only [lookupLastBy, List.mem_cons]
    cases h : lookupLastBy p xs with
    | some y =>
      simp only [reduceCtorEq, false_iff]
      intro hall
      have : lookupLastBy p xs = none := ih.mpr (fun z hz => hall z (Or.inr hz))
      simp [this] at h
    | none =>
      by_cases hx : p x = true
      · simp [hx]
      · simp only [Bool.not_eq_true] at hx
        simp only [hx, Bool.false_eq_true, if_false, true_iff]
        intro z hz
        rcases hz with hz | hz
        · simpa [hz] using hx
        · exact ih.mp h z hz

theorem lookupLastBy_sat {α : Type} (p : α → Bool) (l : List α) (y : α)
    (h : lookupLastBy p l = some y) : p y = true := by
  induction l with
  | nil => simp [lookupLastBy] at h
  | cons x xs ih =>
    simp only [lookupLastBy] at h
    cases hxs : lookupLastBy p xs with
    | some z => simp [hxs] at h; subst h; exact ih hxs
    | none =>
      simp only [hxs] at h
      by_cases hx : p x = true
      · simp [hx] at h; subst h; exact hx
      · simp [hx] at h

theorem lookupLastBy_mem {α : Type} (p : α → Bool) (l : List α) (y : α)
    (h : lookupLastBy p l = some y) : y ∈ l := by
  induction l with
  | nil => simp [lookupLastBy] at h
  | cons x xs ih =>
    simp only [lookupLastBy] at h
    cases hxs : lookupLastBy p xs with
    | some z =>
      simp only [hxs] at h
      cases h
      exact List.mem_cons_of_mem x (ih hxs)
    | none =>
      simp only [hxs] at h
      by_cases hx : p x = true
      · simp [hx] at h; subst h; exact List.mem_cons_self x xs
      · simp [hx] at h

theorem lookupLastBy_append {α : Type} (p : α → Bool) (l1 l2 : List α) :
    lookupLastBy p (l1 ++ l2)
      = match lookupLastBy p l2 with
        | some y => some y
        | none => lookupLastBy p l1 := by
  induction l1 with
  | nil =>
    simp only [List.nil_append]
    cases lookupLastBy p l2 <;> simp [lookupLastBy]
  | cons x xs ih =>
    simp only [List.cons_append, lookupLastBy, List.append_eq]
    rw [ih]
    cases h2 : lookupLastBy p l2 with
    | some y => simp
    | none => simp [lookupLastBy]

/-- The source-selection loop of `merge_source_file`, in closed form: the
first component is the last matching element, the second the non-matching
elements in order. -/
theorem scan_foldl {α : Type} (p : α → Bool) (l : List α) (o : Option α) (acc : List α) :
    l.foldl (fun a x => if p x then (some x, a.2) else (a.1, a.2 ++ [x])) (o, acc)
      = (match lookupLastBy p l with
         | some y => some y
         | none => o,
         acc ++ l.filter (fun x => !p x)) := by
  induction l generalizing o acc with
  | nil => simp [lookupLastBy]
  | cons x xs ih =>
    by_cases h : p x = true
    · simp only [List.foldl_cons, h, if_true, ih, lookupLastBy]
      cases lookupLastBy p xs <;> simp [h]
    · simp only [Bool.not_eq_true] at h
      simp only [List.foldl_cons, h, Bool.false_eq_true, if_false, ih, lookupLastBy]
      cases lookupLastBy p xs <;> simp [h]

/-- `merge_columns` in closed form: the remote-driven part in remote order,
then (unless pruning) the yaml-only columns. -/
theorem merge_columns_eq (bq_columns : List BigQueryColumn) (yaml_columns : List DbtColumn)
    (remove_deleted : Bool) :
    merge_columns bq_columns yaml_columns remove_deleted
      = bq_columns.map (mergeColumnOne yaml_columns)
        ++ (if remove_deleted then []
            else yaml_columns.filter (fun c => !bqHasColumn bq_columns c.name)) := by
  unfold merge_columns
  cases remove_deleted with
  | true => simp [foldl_append_eq_map]
  | false => simp [foldl_append_eq_map, foldl_keep_eq_filter]

/-- The table list of `merge_sources` in closed form. -/
theorem merge_sources_tables_eq (bq_tables : List BigQueryTable) (ys : DbtSource)
    (source_name project_id dataset_id : String)
    (remove_deleted_tables remove_deleted_columns : Bool) :
    (merge_sources bq_tables (some ys) source_name project_id dataset_id
        remove_deleted_tables remove_deleted_columns).tables
      = bq_tables.map (mergeTableOne ys.tables remove_deleted_columns)
        ++ (if remove_deleted_tables then []
            else ys.tables.filter (fun t => !bqHasTable bq_tables t.name)) := by
  unfold merge_sources
  cases remove_deleted_tables with
  | true => simp [foldl_append_eq_map]
  | false => simp [foldl_append_eq_map, foldl_keep_eq_filter]

/-- `merge_source_file` on an existing document, in closed form: the
non-matching sources in original order, then the merge of the last matching
source (or of none). -/
theorem merge_source_file_eq (bq_tables : List BigQueryTable) (yf : DbtSourceFile)
    (source_name project_id dataset_id : String)
    (remove_deleted_tables remove_deleted_columns : Bool) :
    merge_source_file bq_tables (some yf) source_name project_id dataset_id
        remove_deleted_tables remove_deleted_columns
      = { version := yf.version
          sources := yf.sources.filter (fun s => !sourceMatches source_name dataset_id s)
            ++ [merge_sources bq_tables
                  (lookupLastBy (sourceMatches source_name dataset_id) yf.sources)
                  source_name project_id dataset_id
                  remove_deleted_tables remove_deleted_columns] } := by
  simp only [merge_source_file]
  rw [scan_foldl]
  simp
  cases lookupLastBy (sourceMatches source_name dataset_id) yf.sources <;> rfl

/-! ### Names of merged entities, and dict lookups over the merged lists -/

theorem mergeColumnOne_name (yaml_columns : List DbtColumn) (bq_col : BigQueryColumn) :
    (mergeColumnOne yaml_columns bq_col).name = bq_col.name := by
  unfold mergeColumnOne
  cases lookupLastBy (fun c => c.name == bq_col.name) yaml_columns <;>
    simp [build_column_from_bigquery]

theorem mergeTableOne_name (yaml_tables : List DbtTable) (rdc : Bool)
    (bq_table : BigQueryTable) :
    (mergeTableOne yaml_tables rdc bq_table).name = bq_table.table_id := by
  unfold mergeTableOne merge_table
  cases h : lookupLastBy (fun t => t.name == bq_table.table_id) yaml_tables with
  | none => simp [build_table_from_bigquery]
  | some yt =>
    have hsat := lookupLastBy_sat _ _ _ h
    simp only [beq_iff_eq] at hsat
    simp [hsat]

/-- Looking a key up in the dict built from `l.map f` returns the image of the
unique element of `l` carrying that key. -/
theorem lookupLastBy_map_key {α β : Type} (key : α → String) (f : α → β) (keyB : β → String)
    (hf : ∀ x, keyB (f x) = key x) (l : List α) (hnodup : (l.map key).Nodup)
    (a : α) (ha : a ∈ l) :
    lookupLastBy (fun b => keyB b == key a) (l.map f) = some (f a) := by
  induction l with
  | nil => simp at ha
  | cons x xs ih =>
    simp only [List.map_cons, List.nodup_cons] at hnodup
    obtain ⟨hx, hxs⟩ := hnodup
    rcases List.mem_cons.mp ha with rfl | hmem
    · have hnone : lookupLastBy (fun b => keyB b == key a) (xs.map f) = none := by
        rw [lookupLastBy_eq_none]
        intro b hb
        obtain ⟨z, hz, rfl⟩ := List.mem_map.mp hb
        rw [hf, beq_eq_false_iff_ne]
        intro heq
        exact hx (heq ▸ List.mem_map_of_mem key hz)
      simp [lookupLastBy, hnone, hf]
    · simp only [List.map_cons, lookupLastBy, ih hxs hmem]

/-! ### Idempotence of the merge, level by level -/

theorem pyOrStr_idem (a b : String) : pyOrStr (pyOrStr a b) b = pyOrStr a b := by
  unfold pyOrStr
  by_cases h : a = "" <;> by_cases h2 : b = "" <;> simp [h, h2]

theorem pyOrStr_self (a : String) : pyOrStr a a = a := by
  unfold pyOrStr
  split <;> rfl

theorem pyOrOptStr_pyOrStr (o : Option String) (b : String) :
    pyOrStr (pyOrOptStr o b) b = pyOrOptStr o b := by
  cases o with
  | none => simp [pyOrOptStr, pyOrStr, ite_self]
  | some s => simp [pyOrOptStr, pyOrStr_idem]

theorem bqHasColumn_of_mem (bq_columns : List BigQueryColumn) (b : BigQueryColumn)
    (hb : b ∈ bq_columns) : bqHasColumn bq_columns b.name = true := by
  simp only [bqHasColumn, List.any_eq_true]
  exact ⟨b, hb, by simp⟩

theorem bqHasTable_of_mem (bq_tables : List BigQueryTable) (b : BigQueryTable)
    (hb : b ∈ bq_tables) : bqHasTable bq_tables b.table_id = true := by
  simp only [bqHasTable, List.any_eq_true]
  exact ⟨b, hb, by simp⟩

/-- The yaml-only tail of a merged column list holds no column named after a
remote column. -/
theorem lookup_kept_columns_none (bq_columns : List BigQueryColumn)
    (yaml_columns : List DbtColumn) (b : BigQueryColumn) (hb : b ∈ bq_columns)
    (rdc : Bool) :
    lookupLastBy (fun c => c.name == b.name)
      (if rdc then []
       else yaml_columns.filter (fun c => !bqHasColumn bq_columns c.name)) = none := by
  rw [lookupLastBy_eq_none]
  intro c hc
  cases rdc with
  | true => simp at hc
  | false =>
    simp only [Bool.false_eq_true, if_false] at hc
    obtain ⟨_, hcp⟩ := List.mem_filter.mp hc
    simp only [Bool.not_eq_true'] at hcp
    rw [beq_eq_false_iff_ne]
    intro heq
    rw [heq, bqHasColumn_of_mem bq_columns b hb] at hcp
    simp at hcp

theorem lookup_kept_tables_none (bq_tables : List BigQueryTable)
    (yaml_tables : List DbtTable) (b : BigQueryTable) (hb : b ∈ bq_tables)
    (rdt : Bool) :
    lookupLastBy (fun t => t.name == b.table_id)
      (if rdt then []
       else yaml_tables.filter (fun t => !bqHasTable bq_tables t.name)) = none := by
  rw [lookupLastBy_eq_none]
  intro c hc
  cases rdt with
  | true => simp at hc
  | false =>
    simp only [Bool.false_eq_true, if_false] at hc
    obtain ⟨_, hcp⟩ := List.mem_filter.mp hc
    simp only [Bool.not_eq_true'] at hcp
    rw [beq_eq_false_iff_ne]
    intro heq
    rw [heq, bqHasTable_of_mem bq_tables b hb] at hcp
    simp at hcp

/-- Re-merging a remote column against a document that stores exactly its own
previous merge result reproduces that result. -/
theorem mergeColumnOne_requery (y1 y2 : List DbtColumn) (b : BigQueryColumn)
    (h : lookupLastBy (fun c => c.name == b.name) y2 = some (mergeColumnOne y1 b)) :
    mergeColumnOne y2 b = mergeColumnOne y1 b := by
  conv_lhs => rw [mergeColumnOne]
  rw [h]
  unfold mergeColumnOne
  cases lookupLastBy (fun c => c.name == b.name) y1 with
  | some yc => simp [pyOrStr_idem]
  | none => simp [build_column_from_bigquery, pyOrStr_self]

theorem merge_columns_idem (bq_columns : List BigQueryColumn)
    (yaml_columns : List DbtColumn) (rdc : Bool)
    (h : (bq_columns.map (fun b => b.name)).Nodup) :
    merge_columns bq_columns (merge_columns bq_columns yaml_columns rdc) rdc
      = merge_columns bq_columns yaml_columns rdc := by
  have hscrut : ∀ b ∈ bq_columns,
      lookupLastBy (fun c => c.name == b.name) (merge_columns bq_columns yaml_columns rdc)
        = some (mergeColumnOne yaml_columns b) := by
    intro b hb
    rw [merge_columns_eq, lookupLastBy_append,
      lookup_kept_columns_none bq_columns yaml_columns b hb rdc]
    exact lookupLastBy_map_key (fun x => x.name) (mergeColumnOne yaml_columns)
      (fun c => c.name) (fun x => mergeColumnOne_name yaml_columns x) bq_columns h b hb
  conv_lhs => rw [merge_columns_eq]
  conv_rhs => rw [merge_columns_eq]
  have hmap : bq_columns.map (mergeColumnOne (merge_columns bq_columns yaml_columns rdc))
      = bq_columns.map (mergeColumnOne yaml_columns) :=
    List.map_congr_left (fun b hb => mergeColumnOne_requery yaml_columns _ b (hscrut b hb))
  rw [hmap]
  congr 1
  cases rdc with
  | true => rfl
  | false =>
    simp only [Bool.false_eq_true, if_false]
    rw [merge_columns_eq]
    simp only [Bool.false_eq_true, if_false, List.filter_append, List.filter_filter,
      Bool.and_self]
    have hmapnil : (bq_columns.map (mergeColumnOne yaml_columns)).filter
        (fun c => !bqHasColumn bq_columns c.name) = [] := by
      rw [List.filter_eq_nil_iff]
      intro c hc
      obtain ⟨b, hb, rfl⟩ := List.mem_map.mp hc
      rw [mergeColumnOne_name, bqHasColumn_of_mem bq_columns b hb]
      simp
    rw [hmapnil, List.nil_append]

theorem merge_columns_nil (bq_columns : List BigQueryColumn) (rdc : Bool) :
    merge_columns bq_columns [] rdc = bq_columns.map build_column_from_bigquery := by
  rw [merge_columns_eq]
  simp [mergeColumnOne, lookupLastBy]

/-- Re-merging a remote table against its own previous merge result
reproduces that result, provided the remote column names are distinct. -/
theorem merge_table_self (bq_table : BigQueryTable) (yt0 : Option DbtTable) (rdc : Bool)
    (hnodup : (bq_table.columns.map (fun c => c.name)).Nodup) :
    merge_table bq_table (some (merge_table bq_table yt0 rdc)) rdc
      = merge_table bq_table yt0 rdc := by
  cases yt0 with
  | none =>
    simp only [merge_table, build_table_from_bigquery, DbtTable.mk.injEq, true_and, and_true]
    refine ⟨pyOrStr_self _, ?_⟩
    rw [← merge_columns_nil bq_table.columns rdc, merge_columns_idem _ _ _ hnodup]
  | some yt =>
    simp only [merge_table, DbtTable.mk.injEq, true_and, and_true]
    exact ⟨pyOrStr_idem _ _, merge_columns_idem _ _ _ hnodup⟩

theorem mergeTableOne_requery (y1 y2 : List DbtTable) (rdc : Bool) (bq_table : BigQueryTable)
    (hnodup : (bq_table.columns.map (fun c => c.name)).Nodup)
    (h : lookupLastBy (fun t => t.name == bq_table.table_id) y2
        = some (mergeTableOne y1 rdc bq_table)) :
    mergeTableOne y2 rdc bq_table = mergeTableOne y1 rdc bq_table := by
  conv_lhs => rw [mergeTableOne]
  rw [h]
  exact merge_table_self bq_table
    (lookupLastBy (fun t => t.name == bq_table.table_id) y1) rdc hnodup

theorem sourceExt (a b : DbtSource) (h1 : a.name = b.name) (h2 : a.database = b.database)
    (h3 : a.schema_name = b.schema_name) (h4 : a.description = b.description)
    (h5 : a.tables = b.tables) (h6 : a.meta = b.meta) : a = b := by
  cases a; cases b; simp_all

theorem fileExt (a b : DbtSourceFile) (h1 : a.version = b.version)
    (h2 : a.sources = b.sources) : a = b := by
  cases a; cases b; simp_all

theorem merge_sources_name (bq_tables : List BigQueryTable) (ys : DbtSource)
    (sn pid did : String) (rdt rdc : Bool) :
    (merge_sources bq_tables (some ys) sn pid did rdt rdc).name = ys.name := by
  simp [merge_sources]

theorem merge_sources_database (bq_tables : List BigQueryTable) (ys : DbtSource)
    (sn pid did : String) (rdt rdc : Bool) :
    (merge_sources bq_tables (some ys) sn pid did rdt rdc).database
      = some (pyOrOptStr ys.database pid) := by
  simp [merge_sources]

theorem merge_sources_schema (bq_tables : List BigQueryTable) (ys : DbtSource)
    (sn pid did : String) (rdt rdc : Bool) :
    (merge_sources bq_tables (some ys) sn pid did rdt rdc).schema_name
      = some (pyOrOptStr ys.schema_name did) := by
  simp [merge_sources]

theorem merge_sources_description (bq_tables : List BigQueryTable) (ys : DbtSource)
    (sn pid did : String) (rdt rdc : Bool) :
    (merge_sources bq_tables (some ys) sn pid did rdt rdc).description
      = ys.description := by
  simp [merge_sources]

theorem merge_sources_meta (bq_tables : List BigQueryTable) (ys : DbtSource)
    (sn pid did : String) (rdt rdc : Bool) :
    (merge_sources bq_tables (some ys) sn pid did rdt rdc).meta = ys.meta := by
  simp [merge_sources]

theorem merge_sources_idem (bq_tables : List BigQueryTable) (ys : DbtSource)
    (sn pid did : String) (rdt rdc : Bool)
    (hids : (bq_tables.map (fun t => t.table_id)).Nodup)
    (hcols : ∀ t ∈ bq_tables, (t.columns.map (fun c => c.name)).Nodup) :
    merge_sources bq_tables
        (some (merge_sources bq_tables (some ys) sn pid did rdt rdc))
        sn pid did rdt rdc
      = merge_sources bq_tables (some ys) sn pid did rdt rdc := by
  have hMtab : (merge_sources bq_tables (some ys) sn pid did rdt rdc).tables
      = bq_tables.map (mergeTableOne ys.tables rdc)
        ++ (if rdt then [] else ys.tables.filter (fun t => !bqHasTable bq_tables t.name)) :=
    merge_sources_tables_eq bq_tables ys sn pid did rdt rdc
  apply sourceExt
  · rw [merge_sources_name, merge_sources_name]
  · rw [merge_sources_database, merge_sources_database]
    exact congrArg some (pyOrOptStr_pyOrStr ys.database pid)
  · rw [merge_sources_schema, merge_sources_schema]
    exact congrArg some (pyOrOptStr_pyOrStr ys.schema_name did)
  · rw [merge_sources_description, merge_sources_description]
  · -- the table list
    rw [merge_sources_tables_eq]
    have hscrut : ∀ b ∈ bq_tables,
        lookupLastBy (fun t => t.name == b.table_id)
            (merge_sources bq_tables (some ys) sn pid did rdt rdc).tables
          = some (mergeTableOne ys.tables rdc b) := by
      intro b hb
      rw [hMtab, lookupLastBy_append, lookup_kept_tables_none bq_tables ys.tables b hb rdt]
      exact lookupLastBy_map_key (fun t => t.table_id) (mergeTableOne ys.tables rdc)
        (fun t => t.name) (fun x => mergeTableOne_name ys.tables rdc x) bq_tables hids b hb
    have hmap : bq_tables.map
          (mergeTableOne (merge_sources bq_tables (some ys) sn pid did rdt rdc).tables rdc)
        = bq_tables.map (mergeTableOne ys.tables rdc) :=
      List.map_congr_left (fun b hb =>
        mergeTableOne_requery ys.tables _ rdc b (hcols b hb) (hscrut b hb))
    rw [hmap]
    conv_rhs => rw [hMtab]
    congr 1
    cases rdt with
    | true => rfl
    | false =>
      simp only [Bool.false_eq_true, if_false]
      rw [hMtab]
      simp only [Bool.false_eq_true, if_false, List.filter_append, List.filter_filter,
        Bool.and_self]
      have hmapnil : (bq_tables.map (mergeTableOne ys.tables rdc)).filter
          (fun t => !bqHasTable bq_tables t.name) = [] := by
        rw [List.filter_eq_nil_iff]
        intro t ht
        obtain ⟨b, hb, rfl⟩ := List.mem_map.mp ht
        rw [mergeTableOne_name, bqHasTable_of_mem bq_tables b hb]
        simp
      rw [hmapnil, List.nil_append]
  · rw [merge_sources_meta, merge_sources_meta]

/-- The merged source always passes the source-selection test of the next
run, as long as any source it was merged from did. -/
theorem merge_sources_matches (bq_tables : List BigQueryTable) (sel : Option DbtSource)
    (sn pid did : String) (rdt rdc : Bool)
    (h : ∀ y, sel = some y → sourceMatches sn did y = true) :
    sourceMatches sn did (merge_sources bq_tables sel sn pid did rdt rdc) = true := by
  cases sel with
  | none => simp [sourceMatches, merge_sources]
  | some y0 =>
    have hy := h y0 rfl
    simp only [sourceMatches, Bool.or_eq_true, beq_iff_eq] at hy ⊢
    rcases hy with hname | hschema
    · exact Or.inl (by rw [merge_sources_name, hname])
    · refine Or.inr ?_
      rw [merge_sources_schema, hschema]
      simp [pyOrOptStr, pyOrStr_self]

theorem merge_sources_idem_opt (bq_tables : List BigQueryTable) (ysOpt : Option DbtSource)
    (sn pid did : String) (rdt rdc : Bool)
    (hids : (bq_tables.map (fun t => t.table_id)).Nodup)
    (hcols : ∀ t ∈ bq_tables, (t.columns.map (fun c => c.name)).Nodup) :
    merge_sources bq_tables (some (merge_sources bq_tables ysOpt sn pid did rdt rdc))
        sn pid did rdt rdc
      = merge_sources bq_tables ysOpt sn pid did rdt rdc := by
  cases ysOpt with
  | some ys => exact merge_sources_idem bq_tables ys sn pid did rdt rdc hids hcols
  | none =>
    have hdef : merge_sources bq_tables none sn pid did rdt rdc
        = merge_sources bq_tables
            (some { name := sn, database := some pid, schema_name := some did,
                    description := "", tables := [], meta := none })
            sn pid did rdt rdc := rfl
    rw [hdef]
    exact merge_sources_idem bq_tables _ sn pid did rdt rdc hids hcols

theorem merge_source_file_idem_aux (bq_tables : List BigQueryTable) (yf : DbtSourceFile)
    (sn pid did : String) (rdt rdc : Bool)
    (hids : (bq_tables.map (fun t => t.table_id)).Nodup)
    (hcols : ∀ t ∈ bq_tables, (t.columns.map (fun c => c.name)).Nodup) :
    merge_source_file bq_tables
        (some (merge_source_file bq_tables (some yf) sn pid did rdt rdc))
        sn pid did rdt rdc
      = merge_source_file bq_tables (some yf) sn pid did rdt rdc := by
  rw [merge_source_file_eq bq_tables yf sn pid did rdt rdc, merge_source_file_eq]
  have hpm : sourceMatches sn did
      (merge_sources bq_tables (lookupLastBy (sourceMatches sn did) yf.sources)
        sn pid did rdt rdc) = true :=
    merge_sources_matches bq_tables _ sn pid did rdt rdc
      (fun y hy => lookupLastBy_sat _ _ y hy)
  apply fileExt
  · rfl
  · simp only [List.filter_append, List.filter_filter, Bool.and_self]
    rw [lookupLastBy_append]
    simp only [lookupLastBy, hpm, if_true]
    rw [merge_sources_idem_opt bq_tables _ sn pid did rdt rdc hids hcols]
    simp [hpm]

/-! ### Serialization and parsing (io/yaml_handler.py)

The raw YAML data exchanged with ruamel is modelled by `YVal`. Mapping keys
are the fixed key strings of the handler, modelled as an enumeration; the
constructor names are exactly the emitted key strings (`schema` is the key
holding the `schema_name` field). The opaque metadata and tests blobs are
passed through serialization unchanged, so they appear as dedicated leaf
constructors. -/

inductive YKey where
  | version
  | sources
  | name
  | database
  | schema
  | description
  | meta
  | tables
  | identifier
  | data_type
  | tests
  | columns
deriving DecidableEq, Repr

inductive YVal where
  | s : String → YVal
  | i : Int → YVal
  | arr : List YVal → YVal
  | m : List (YKey × YVal) → YVal
  | metaVal : MetaMap → YVal
  | testsVal : TestList → YVal

/-- Python truthiness of a YAML value (empty string, zero, empty containers
are falsy). -/
def yTruthy : YVal → Bool
  | YVal.s v => !(v == "")
  | YVal.i n => !(n == 0)
  | YVal.arr xs => !xs.isEmpty
  | YVal.m fs => !fs.isEmpty
  | YVal.metaVal mm => !mm.isEmpty
  | YVal.testsVal t => !t.isEmpty

/-- Python `dict.get(k)` over an insertion-ordered mapping with unique keys. -/
def yGet (fields : List (YKey × YVal)) (k : YKey) : Option YVal :=
  match fields with
  | [] => none
  | (k2, v) :: rest => if k2 = k then some v else yGet rest k

/-- One `if x: data[k] = x` step of the serializer for an optional string
field (absent or empty means omitted). -/
def optStrEntry (k : YKey) : Option String → List (YKey × YVal)
  | some v => if v = "" then [] else [(k, YVal.s v)]
  | none => []

/-- One `if x: data[k] = x` step for a plain string field. -/
def strEntry (k : YKey) (v : String) : List (YKey × YVal) :=
  if v = "" then [] else [(k, YVal.s v)]

/-- One `if x: data["meta"] = x` step (an empty mapping is falsy). -/
def metaEntry : Option MetaMap → List (YKey × YVal)
  | some mm => if mm.isEmpty then [] else [(YKey.meta, YVal.metaVal mm)]
  | none => []

/-- One `if x: data["tests"] = x` step (an empty list is falsy). -/
def testsEntry : Option TestList → List (YKey × YVal)
  | some t => if t.isEmpty then [] else [(YKey.tests, YVal.testsVal t)]
  | none => []

/-- yaml_handler.py `_serialize_source_file`, column level (lines 168-182). -/
def serializeColumn (column : DbtColumn) : YVal :=
  YVal.m ([(YKey.name, YVal.s column.name)]
    ++ optStrEntry YKey.data_type column.data_type
    ++ strEntry YKey.description column.description
    ++ metaEntry column.meta
    ++ testsEntry column.tests)

/-- yaml_handler.py `_serialize_source_file`, table level (lines 151-184):
the `columns` key is only emitted when the column list is non-empty. -/
def serializeTable (table : DbtTable) : YVal :=
  YVal.m ([(YKey.name, YVal.s table.name)]
    ++ optStrEntry YKey.identifier table.identifier
    ++ strEntry YKey.description table.description
    ++ metaEntry table.meta
    ++ testsEntry table.tests
    ++ (if table.columns.isEmpty then []
        else [(YKey.columns, YVal.arr (table.columns.map serializeColumn))]))

/-- yaml_handler.py `_serialize_source_file`, source level (lines 135-186):
the `tables` key is always emitted. -/
def serializeSource (source : DbtSource) : YVal :=
  YVal.m ([(YKey.name, YVal.s source.name)]
    ++ optStrEntry YKey.database source.database
    ++ optStrEntry YKey.schema source.schema_name
    ++ strEntry YKey.description source.description
    ++ metaEntry source.meta
    ++ [(YKey.tables, YVal.arr (source.tables.map serializeTable))])

/-- yaml_handler.py `_serialize_source_file`, top level (lines 130-188). -/
def serialize_source_file (source_file : DbtSourceFile) : YVal :=
  YVal.m [(YKey.version, YVal.i source_file.version),
    (YKey.sources, YVal.arr (source_file.sources.map serializeSource))]

/-- Python `data[k]` on a required string field: a missing key or an
ill-typed value raises (modelled as parse failure). -/
def reqStr : Option YVal → Option String
  | some (YVal.s v) => some v
  | _ => none

/-- Python `data.get(k)` on an optional string field. -/
def optStr : Option YVal → Option (Option String)
  | none => some none
  | some (YVal.s v) => some (some v)
  | some _ => none

/-- Python `data.get(k, "")` on a description field. -/
def strOrEmpty : Option YVal → Option String
  | none => some ""
  | some (YVal.s v) => some v
  | some _ => none

/-- Python `data.get("meta")`: the opaque blob is taken as is. -/
def optMeta : Option YVal → Option (Option MetaMap)
  | none => some none
  | some (YVal.metaVal mm) => some (some mm)
  | some _ => none

/-- Python `data.get("tests")`: the opaque blob is taken as is. -/
def optTests : Option YVal → Option (Option TestList)
  | none => some none
  | some (YVal.testsVal t) => some (some t)
  | some _ => none

/-- A Python `for` loop accumulating parsed entries, aborting on the first
failure. -/
def mapMOpt {α β : Type} (f : α → Option β) : List α → Option (List β)
  | [] => some []
  | x :: xs =>
    match f x with
    | none => none
    | some y =>
      match mapMOpt f xs with
      | none => none
      | some ys => some (y :: ys)

/-- yaml_handler.py `_parse_source_file`, column level (lines 86-94). -/
def parseColumn (column_data : YVal) : Option DbtColumn :=
  match column_data with
  | YVal.m fields =>
    match reqStr (yGet fields YKey.name), optStr (yGet fields YKey.data_type),
        strOrEmpty (yGet fields YKey.description), optMeta (yGet fields YKey.meta),
        optTests (yGet fields YKey.tests) with
    | some nm, some dt, some d, some mt, some ts =>
      some { name := nm, data_type := dt, description := d, meta := mt, tests := ts }
    | _, _, _, _, _ => none
  | _ => none

/-- The `if table_data.get("columns"):` guard of the parser (line 85): a
missing or falsy value yields an empty column list. -/
def parseColumns (o : Option YVal) : Option (List DbtColumn) :=
  match o with
  | none => some []
  | some v =>
    if yTruthy v then
      match v with
      | YVal.arr xs => mapMOpt parseColumn xs
      | _ => none
    else some []

/-- yaml_handler.py `_parse_source_file`, table level (lines 82-104). -/
def parseTable (table_data : YVal) : Option DbtTable :=
  match table_data with
  | YVal.m fields =>
    match reqStr (yGet fields YKey.name), optStr (yGet fields YKey.identifier),
        strOrEmpty (yGet fields YKey.description), optMeta (yGet fields YKey.meta),
        optTests (yGet fields YKey.tests), parseColumns (yGet fields YKey.columns) with
    | some nm, some idf, some d, some mt, some ts, some cols =>
      some { name := nm, identifier := idf, description := d, columns := cols,
             meta := mt, tests := ts }
    | _, _, _, _, _, _ => none
  | _ => none

/-- Python `source_data.get("tables", [])` followed by iteration. -/
def parseTables (o : Option YVal) : Option (List DbtTable) :=
  match o with
  | none => some []
  | some (YVal.arr xs) => mapMOpt parseTable xs
  | some _ => none

/-- yaml_handler.py `_parse_source_file`, source level (lines 79-114); the
`schema` key populates the `schema_name` field. -/
def parseSource (source_data : YVal) : Option DbtSource :=
  match source_data with
  | YVal.m fields =>
    match reqStr (yGet fields YKey.name), optStr (yGet fields YKey.database),
        optStr (yGet fields YKey.schema), strOrEmpty (yGet fields YKey.description),
        parseTables (yGet fields YKey.tables), optMeta (yGet fields YKey.meta) with
    | some nm, some db, some sc, some d, some tbls, some mt =>
      some { name := nm, database := db, schema_name := sc, description := d,
             tables := tbls, meta := mt }
    | _, _, _, _, _, _ => none
  | _ => none

/-- Python `data.get("version", 2)`. -/
def parseVersion (o : Option YVal) : Option Int :=
  match o with
  | none => some 2
  | some (YVal.i n) => some n
  | some _ => none

/-- Python `data.get("sources", [])` followed by iteration. -/
def parseSources (o : Option YVal) : Option (List DbtSource) :=
  match o with
  | none => some []
  | some (YVal.arr xs) => mapMOpt parseSource xs
  | some _ => none

/-- yaml_handler.py `_parse_source_file`, top level (lines 68-119). -/
def parse_source_file (data : YVal) : Option DbtSourceFile :=
  match data with
  | YVal.m fields =>
    match parseVersion (yGet fields YKey.version), parseSources (yGet fields YKey.sources) with
    | some v, some srcs => some { version := v, sources := srcs }
    | _, _ => none
  | _ => none

/-! ### The round-trip domain: optional fields unset or non-empty -/

def wfColumn (c : DbtColumn) : Bool :=
  c.data_type != some "" && c.meta != some ([] : MetaMap) && c.tests != some ([] : TestList)

def wfTable (t : DbtTable) : Bool :=
  t.identifier != some "" && t.meta != some ([] : MetaMap) && t.tests != some ([] : TestList)
    && t.columns.all wfColumn

def wfSource (s : DbtSource) : Bool :=
  s.database != some "" && s.schema_name != some "" && s.meta != some ([] : MetaMap)
    && s.tables.all wfTable

def wfFile (f : DbtSourceFile) : Bool :=
  f.sources.all wfSource

/-! ### Round-trip lemmas -/

theorem parse_serialize_column (c : DbtColumn) (h : wfColumn c = true) :
    parseColumn (serializeColumn c) = some c := by
  obtain ⟨nm, dt, d, mt, ts⟩ := c
  simp only [wfColumn, Bool.and_eq_true, bne_iff_ne, ne_eq] at h
  obtain ⟨⟨h1, h2⟩, h3⟩ := h
  rcases dt with _ | s <;> rcases mt with _ | mm <;> rcases ts with _ | tl <;>
    by_cases hd : d = "" <;>
    simp_all [parseColumn, serializeColumn, optStrEntry, strEntry, metaEntry, testsEntry,
      yGet, reqStr, optStr, strOrEmpty, optMeta, optTests, List.isEmpty_iff]

theorem mapMOpt_parse_serialize_column (l : List DbtColumn)
    (h : ∀ c ∈ l, wfColumn c = true) :
    mapMOpt parseColumn (l.map serializeColumn) = some l := by
  induction l with
  | nil => rfl
  | cons c rest ih =>
    simp only [List.map_cons, mapMOpt,
      parse_serialize_column c (h c (List.mem_cons_self c rest)),
      ih (fun x hx => h x (List.mem_cons_of_mem c hx))]

theorem parse_serialize_table (t : DbtTable) (h : wfTable t = true) :
    parseTable (serializeTable t) = some t := by
  obtain ⟨nm, idf, d, cols, mt, ts⟩ := t
  simp only [wfTable, Bool.and_eq_true, bne_iff_ne, ne_eq, List.all_eq_true] at h
  obtain ⟨⟨⟨h1, h2⟩, h3⟩, h4⟩ := h
  have hcols := mapMOpt_parse_serialize_column cols h4
  by_cases hc : cols = [] <;>
    rcases idf with _ | s <;> rcases mt with _ | mm <;> rcases ts with _ | tl <;>
    by_cases hd : d = "" <;>
    simp_all [parseTable, serializeTable, optStrEntry, strEntry, metaEntry, testsEntry,
      yGet, reqStr, optStr, strOrEmpty, optMeta, optTests, parseColumns, yTruthy,
      List.isEmpty_iff]

theorem mapMOpt_parse_serialize_table (l : List DbtTable)
    (h : ∀ t ∈ l, wfTable t = true) :
    mapMOpt parseTable (l.map serializeTable) = some l := by
  induction l with
  | nil => rfl
  | cons t rest ih =>
    simp only [List.map_cons, mapMOpt,
      parse_serialize_table t (h t (List.mem_cons_self t rest)),
      ih (fun x hx => h x (List.mem_cons_of_mem t hx))]

theorem parse_serialize_source (s : DbtSource) (h : wfSource s = true) :
    parseSource (serializeSource s) = some s := by
  obtain ⟨nm, db, sc, d, tbls, mt⟩ := s
  simp only [wfSource, Bool.and_eq_true, bne_iff_ne, ne_eq, List.all_eq_true] at h
  obtain ⟨⟨⟨h1, h2⟩, h3⟩, h4⟩ := h
  have htbls := mapMOpt_parse_serialize_table tbls h4
  rcases db with _ | dbs <;> rcases sc with _ | scs <;> rcases mt with _ | mm <;>
    by_cases hd : d = "" <;>
    simp_all [parseSource, serializeSource, optStrEntry, strEntry, metaEntry, testsEntry,
      yGet, reqStr, optStr, strOrEmpty, optMeta, optTests, parseTables,
      List.isEmpty_iff]

theorem mapMOpt_parse_serialize_source (l : List DbtSource)
    (h : ∀ s ∈ l, wfSource s = true) :
    mapMOpt parseSource (l.map serializeSource) = some l := by
  induction l with
  | nil => rfl
  | cons s rest ih =>
    simp only [List.map_cons, mapMOpt,
      parse_serialize_source s (h s (List.mem_cons_self s rest)),
      ih (fun x hx => h x (List.mem_cons_of_mem s hx))]

theorem parse_serialize_file (f : DbtSourceFile) (h : wfFile f = true) :
    parse_source_file (serialize_source_file f) = some f := by
  obtain ⟨v, srcs⟩ := f
  simp only [wfFile, List.all_eq_true] at h
  simp [parse_source_file, serialize_source_file, yGet, parseVersion, parseSources,
    mapMOpt_parse_serialize_source srcs h]

/-! ### Key ordering and field presence of the serialized shape -/

/-- The keys of a serialized mapping, in emission order. -/
def keysOf : YVal → List YKey
  | YVal.m fields => fields.map Prod.fst
  | _ => []

theorem optStrEntry_keys (k : YKey) (o : Option String) :
    (optStrEntry k o).map Prod.fst = if o ≠ none ∧ o ≠ some "" then [k] else [] := by
  rcases o with _ | s
  · simp [optStrEntry]
  · by_cases hs : s = "" <;> simp [optStrEntry, hs]

theorem strEntry_keys (k : YKey) (v : String) :
    (strEntry k v).map Prod.fst = if v ≠ "" then [k] else [] := by
  by_cases hv : v = "" <;> simp [strEntry, hv]

theorem metaEntry_keys (o : Option MetaMap) :
    (metaEntry o).map Prod.fst
      = if o ≠ none ∧ o ≠ some ([] : MetaMap) then [YKey.meta] else [] := by
  rcases o with _ | mm
  · simp [metaEntry]
  · by_cases hm : mm = [] <;> simp [metaEntry, hm, List.isEmpty_iff]

theorem testsEntry_keys (o : Option TestList) :
    (testsEntry o).map Prod.fst
      = if o ≠ none ∧ o ≠ some ([] : TestList) then [YKey.tests] else [] := by
  rcases o with _ | tl
  · simp [testsEntry]
  · by_cases ht : tl = [] <;> simp [testsEntry, ht, List.isEmpty_iff]

theorem keysOf_serializeColumn (c : DbtColumn) :
    keysOf (serializeColumn c)
      = [YKey.name]
        ++ (if c.data_type ≠ none ∧ c.data_type ≠ some "" then [YKey.data_type] else [])
        ++ (if c.description ≠ "" then [YKey.description] else [])
        ++ (if c.meta ≠ none ∧ c.meta ≠ some ([] : MetaMap) then [YKey.meta] else [])
        ++ (if c.tests ≠ none ∧ c.tests ≠ some ([] : TestList) then [YKey.tests] else []) := by
  simp only [serializeColumn, keysOf, List.map_append, optStrEntry_keys, strEntry_keys,
    metaEntry_keys, testsEntry_keys, List.map_cons, List.map_nil]

theorem keysOf_serializeTable (t : DbtTable) :
    keysOf (serializeTable t)
      = [YKey.name]
        ++ (if t.identifier ≠ none ∧ t.identifier ≠ some "" then [YKey.identifier] else [])
        ++ (if t.description ≠ "" then [YKey.description] else [])
        ++ (if t.meta ≠ none ∧ t.meta ≠ some ([] : MetaMap) then [YKey.meta] else [])
        ++ (if t.tests ≠ none ∧ t.tests ≠ some ([] : TestList) then [YKey.tests] else [])
        ++ (if t.columns ≠ [] then [YKey.columns] else []) := by
  have hcols : ((if t.columns.isEmpty then []
      else [(YKey.columns, YVal.arr (t.columns.map serializeColumn))]).map Prod.fst)
      = if t.columns ≠ [] then [YKey.columns] else [] := by
    by_cases hc : t.columns = [] <;> simp [hc, List.isEmpty_iff]
  simp only [serializeTable, keysOf, List.map_append, optStrEntry_keys, strEntry_keys,
    metaEntry_keys, testsEntry_keys, hcols, List.map_cons, List.map_nil]

theorem keysOf_serializeSource (s : DbtSource) :
    keysOf (serializeSource s)
      = [YKey.name]
        ++ (if s.database ≠ none ∧ s.database ≠ some "" then [YKey.database] else [])
        ++ (if s.schema_name ≠ none ∧ s.schema_name ≠ some "" then [YKey.schema] else [])
        ++ (if s.description ≠ "" then [YKey.description] else [])
        ++ (if s.meta ≠ none ∧ s.meta ≠ some ([] : MetaMap) then [YKey.meta] else [])
        ++ [YKey.tables] := by
  simp only [serializeSource, keysOf, List.map_append, optStrEntry_keys, strEntry_keys,
    metaEntry_keys, testsEntry_keys, List.map_cons, List.map_nil]

theorem keysOf_serialize_source_file (f : DbtSourceFile) :
    keysOf (serialize_source_file f) = [YKey.version, YKey.sources] := rfl

theorem ite_sublist_singleton (p : Prop) [Decidable p] (k : YKey) :
    List.Sublist (if p then [k] else []) [k] := by
  split
  · exact List.Sublist.refl _
  · exact List.nil_sublist _

theorem serializeColumn_keys_spec (c : DbtColumn) :
    List.Sublist (keysOf (serializeColumn c))
      [YKey.name, YKey.data_type, YKey.description, YKey.meta, YKey.tests]
    ∧ YKey.name ∈ keysOf (serializeColumn c)
    ∧ (YKey.data_type ∈ keysOf (serializeColumn c)
        ↔ (c.data_type ≠ none ∧ c.data_type ≠ some ""))
    ∧ (YKey.description ∈ keysOf (serializeColumn c) ↔ c.description ≠ "")
    ∧ (YKey.meta ∈ keysOf (serializeColumn c)
        ↔ (c.meta ≠ none ∧ c.meta ≠ some ([] : MetaMap)))
    ∧ (YKey.tests ∈ keysOf (serializeColumn c)
        ↔ (c.tests ≠ none ∧ c.tests ≠ some ([] : TestList))) := by
  rw [keysOf_serializeColumn]
  refine ⟨?_, ?_, ?_, ?_, ?_, ?_⟩
  · exact (((((List.Sublist.refl [YKey.name]).append
      (ite_sublist_singleton _ YKey.data_type)).append
      (ite_sublist_singleton _ YKey.description)).append
      (ite_sublist_singleton _ YKey.meta)).append
      (ite_sublist_singleton _ YKey.tests))
  all_goals split_ifs <;> simp_all

theorem serializeTable_keys_spec (t : DbtTable) :
    List.Sublist (keysOf (serializeTable t))
      [YKey.name, YKey.identifier, YKey.description, YKey.meta, YKey.tests, YKey.columns]
    ∧ YKey.name ∈ keysOf (serializeTable t)
    ∧ (YKey.identifier ∈ keysOf (serializeTable t)
        ↔ (t.identifier ≠ none ∧ t.identifier ≠ some ""))
    ∧ (YKey.description ∈ keysOf (serializeTable t) ↔ t.description ≠ "")
    ∧ (YKey.meta ∈ keysOf (serializeTable t)
        ↔ (t.meta ≠ none ∧ t.meta ≠ some ([] : MetaMap)))
    ∧ (YKey.tests ∈ keysOf (serializeTable t)
        ↔ (t.tests ≠ none ∧ t.tests ≠ some ([] : TestList)))
    ∧ (YKey.columns ∈ keysOf (serializeTable t) ↔ t.columns ≠ []) := by
  rw [keysOf_serializeTable]
  refine ⟨?_, ?_, ?_, ?_, ?_, ?_, ?_⟩
  · exact ((((((List.Sublist.refl [YKey.name]).append
      (ite_sublist_singleton _ YKey.identifier)).append
      (ite_sublist_singleton _ YKey.description)).append
      (ite_sublist_singleton _ YKey.meta)).append
      (ite_sublist_singleton _ YKey.tests)).append
      (ite_sublist_singleton _ YKey.columns))
  all_goals split_ifs <;> simp_all

theorem serializeSource_keys_spec (s : DbtSource) :
    List.Sublist (keysOf (serializeSource s))
      [YKey.name, YKey.database, YKey.schema, YKey.description, YKey.meta, YKey.tables]
    ∧ YKey.name ∈ keysOf (serializeSource s)
    ∧ YKey.tables ∈ keysOf (serializeSource s)
    ∧ (YKey.database ∈ keysOf (serializeSource s)
        ↔ (s.database ≠ none ∧ s.database ≠ some ""))
    ∧ (YKey.schema ∈ keysOf (serializeSource s)
        ↔ (s.schema_name ≠ none ∧ s.schema_name ≠ some ""))
    ∧ (YKey.description ∈ keysOf (serializeSource s) ↔ s.description ≠ "")
    ∧ (YKey.meta ∈ keysOf (serializeSource s)
        ↔ (s.meta ≠ none ∧ s.meta ≠ some ([] : MetaMap))) := by
  rw [keysOf_serializeSource]
  refine ⟨?_, ?_, ?_, ?_, ?_, ?_, ?_⟩
  · exact ((((((List.Sublist.refl [YKey.name]).append
      (ite_sublist_singleton _ YKey.database)).append
      (ite_sublist_singleton _ YKey.schema)).append
      (ite_sublist_singleton _ YKey.description)).append
      (ite_sublist_singleton _ YKey.meta)).append
      (List.Sublist.refl [YKey.tables]))
  all_goals split_ifs <;> simp_all

/-! ### Auxiliary evaluation facts -/

theorem pyOrOptStr_empty (o : Option String) :
    pyOrOptStr o "" = match o with | some r => r | none => "" := by
  rcases o with _ | r
  · rfl
  · by_cases hr : r = "" <;> simp [pyOrOptStr, pyOrStr, hr]

/-! ### The claims -/

/-- C1 (corrected, counterexample): with two sources both matching the target,
the claim "the first matching Source is the merge input, and every other
Source - including the later matches - appears in the output unchanged" fails:
the later match does not appear in the output at all (it is consumed as the
merge input instead). -/
theorem claimC1_cx :
    ({ name := "s", database := none, schema_name := none, description := "b",
       tables := [], meta := none } : DbtSource)
      ∉ (merge_source_file []
          (some { version := 2,
                  sources := [
                    { name := "s", database := none, schema_name := none,
                      description := "a", tables := [], meta := none },
                    { name := "s", database := none, schema_name := none,
                      description := "b", tables := [], meta := none }] })
          "s" "p" "d" false false).sources := by
  decide

/-- C1 (amended): document reconciliation selects the LAST matching Source in
iteration order as the merge input; the non-matching sources appear unchanged
in their original order, followed by the single merged Source; earlier
matching sources are dropped from the output. -/
theorem claimC1 (bq_tables : List BigQueryTable) (yf : DbtSourceFile)
    (source_name project_id dataset_id : String) (rdt rdc : Bool) :
    merge_source_file bq_tables (some yf) source_name project_id dataset_id rdt rdc
      = { version := yf.version
          sources := yf.sources.filter (fun s => !sourceMatches source_name dataset_id s)
            ++ [merge_sources bq_tables
                  (lookupLastBy (sourceMatches source_name dataset_id) yf.sources)
                  source_name project_id dataset_id rdt rdc] } :=
  merge_source_file_eq bq_tables yf source_name project_id dataset_id rdt rdc

/-- C2 (corrected, counterexample): the claim quantifies over every snapshot;
it fails when the snapshot carries two table descriptors with the same id but
different content, so a second reconciliation of the first output drifts. -/
theorem claimC2_cx :
    merge_source_file
        [{ table_id := "t", description := some "A", columns := [] },
         { table_id := "t", description := some "B", columns := [] }]
        (some (merge_source_file
          [{ table_id := "t", description := some "A", columns := [] },
           { table_id := "t", description := some "B", columns := [] }]
          none "s" "p" "d" false false))
        "s" "p" "d" false false
      ≠ merge_source_file
          [{ table_id := "t", description := some "A", columns := [] },
           { table_id := "t", description := some "B", columns := [] }]
          none "s" "p" "d" false false := by
  decide

/-- C2 (amended): for every snapshot satisfying the data model's uniqueness
invariants (distinct table ids, distinct column names within each table),
every optional prior document and any flag values, re-applying
`merge_source_file` to its own output with the same arguments returns that
output unchanged. -/
theorem claimC2 (bq_tables : List BigQueryTable) (yaml_file : Option DbtSourceFile)
    (source_name project_id dataset_id : String) (rdt rdc : Bool)
    (hids : (bq_tables.map (fun t => t.table_id)).Nodup)
    (hcols : ∀ t ∈ bq_tables, (t.columns.map (fun c => c.name)).Nodup) :
    merge_source_file bq_tables
        (some (merge_source_file bq_tables yaml_file source_name project_id dataset_id rdt rdc))
        source_name project_id dataset_id rdt rdc
      = merge_source_file bq_tables yaml_file source_name project_id dataset_id rdt rdc := by
  cases yaml_file with
  | some yf =>
    exact merge_source_file_idem_aux bq_tables yf source_name project_id dataset_id rdt rdc
      hids hcols
  | none =>
    have hdef : merge_source_file bq_tables none source_name project_id dataset_id rdt rdc
        = merge_source_file bq_tables (some { version := 2, sources := [] })
            source_name project_id dataset_id rdt rdc := rfl
    rw [hdef]
    exact merge_source_file_idem_aux bq_tables _ source_name project_id dataset_id rdt rdc
      hids hcols

def wBqTablesC2 : List BigQueryTable :=
  [{ table_id := "t1", description := some "remote table",
     columns := [{ name := "id", field_type := "INT64", description := none },
                 { name := "name", field_type := "STRING", description := some "n" }] }]

def wFileC2 : Option DbtSourceFile :=
  some { version := 2
         sources := [
           { name := "s", database := none, schema_name := some "d", description := "x"
             tables := [
               { name := "t1", identifier := some "legacy", description := "td"
                 columns := [
                   { name := "id", data_type := some "STR", description := "pk"
                     meta := some [("pii", "no")], tests := some ["not_null"] }]
                 meta := none, tests := none },
               { name := "gone", identifier := none, description := ""
                 columns := [], meta := none, tests := none }]
             meta := none },
           { name := "other", database := none, schema_name := none, description := "o"
             tables := [], meta := none }] }

theorem claimC2_witness :
    ((wBqTablesC2.map (fun t => t.table_id)).Nodup
      ∧ (∀ t ∈ wBqTablesC2, (t.columns.map (fun c => c.name)).Nodup))
    ∧ merge_source_file wBqTablesC2
        (some (merge_source_file wBqTablesC2 wFileC2 "s" "p" "d" false false))
        "s" "p" "d" false false
      = merge_source_file wBqTablesC2 wFileC2 "s" "p" "d" false false :=
  ⟨⟨by decide, by decide⟩,
    claimC2 wBqTablesC2 wFileC2 "s" "p" "d" false false (by decide) (by decide)⟩

/-- C3 (confirmed): a remote column matched by name against an existing
document column is emitted with name and type from the remote descriptor,
description from the existing column when non-empty (else the remote
description, else empty), and the existing metadata and tests unchanged. -/
theorem claimC3 (bq_columns : List BigQueryColumn) (yaml_columns : List DbtColumn)
    (rd : Bool) (i : Nat) (h : i < bq_columns.length) (yc : DbtColumn)
    (hyc : lookupLastBy (fun c => c.name == (bq_columns.get ⟨i, h⟩).name) yaml_columns
        = some yc) :
    yc ∈ yaml_columns
    ∧ yc.name = (bq_columns.get ⟨i, h⟩).name
    ∧ (merge_columns bq_columns yaml_columns rd)[i]?
      = some { name := (bq_columns.get ⟨i, h⟩).name
               data_type := some (bq_columns.get ⟨i, h⟩).field_type
               description :=
                 if yc.description = ""
                 then (match (bq_columns.get ⟨i, h⟩).description with
                       | some r => r
                       | none => "")
                 else yc.description
               meta := yc.meta
               tests := yc.tests } := by
  refine ⟨lookupLastBy_mem _ _ _ hyc, ?_, ?_⟩
  · have hsat := lookupLastBy_sat _ _ _ hyc
    simpa [beq_iff_eq] using hsat
  · rw [merge_columns_eq, List.getElem?_append]
    simp only [List.length_map, h, if_true]
    rw [List.getElem?_map, List.getElem?_eq_getElem h]
    simp only [Option.map_some']
    unfold mergeColumnOne
    rw [show bq_columns[i] = bq_columns.get ⟨i, h⟩ from rfl, hyc]
    simp [pyOrStr, pyOrOptStr_empty]

def wBqColsC3 : List BigQueryColumn :=
  [{ name := "id", field_type := "INT64", description := some "remote" }]

def wYamlColsC3 : List DbtColumn :=
  [{ name := "id", data_type := some "STRING", description := ""
     meta := some [("k", "v")], tests := some ["t"] }]

theorem claimC3_witness :
    (merge_columns wBqColsC3 wYamlColsC3 false)[0]?
      = some { name := "id", data_type := some "INT64", description := "remote"
               meta := some [("k", "v")], tests := some ["t"] } := by
  have h := claimC3 wBqColsC3 wYamlColsC3 false 0 (by decide)
    { name := "id", data_type := some "STRING", description := ""
      meta := some [("k", "v")], tests := some ["t"] } (by decide)
  rw [h.2.2]
  decide

/-- C4 (confirmed): both merges list the remote-driven entries first, in
remote order; with the prune flag false the document-only entries follow,
filtered in order and untouched; with it true they are absent. -/
theorem claimC4 (bq_columns : List BigQueryColumn) (yaml_columns : List DbtColumn)
    (rd : Bool) (bq_tables : List BigQueryTable) (ys : DbtSource)
    (source_name project_id dataset_id : String) (rdt rdc : Bool) :
    merge_columns bq_columns yaml_columns rd
      = bq_columns.map (mergeColumnOne yaml_columns)
        ++ (if rd then []
            else yaml_columns.filter (fun c => !bqHasColumn bq_columns c.name))
    ∧ (merge_sources bq_tables (some ys) source_name project_id dataset_id rdt rdc).tables
      = bq_tables.map (mergeTableOne ys.tables rdc)
        ++ (if rdt then []
            else ys.tables.filter (fun t => !bqHasTable bq_tables t.name)) :=
  ⟨merge_columns_eq bq_columns yaml_columns rd,
   merge_sources_tables_eq bq_tables ys source_name project_id dataset_id rdt rdc⟩

/-- C5 (confirmed): a matched table keeps its non-empty document description
(else falls back to the remote description, else empty) and its metadata and
tests verbatim; the merged source copies the existing source's description
and metadata verbatim. -/
theorem claimC5 (bq_table : BigQueryTable) (yt : DbtTable) (rdc : Bool)
    (bq_tables : List BigQueryTable) (ys : DbtSource)
    (source_name project_id dataset_id : String) (rdt rdc2 : Bool) :
    ((merge_table bq_table (some yt) rdc).description
        = (if yt.description = ""
           then (match bq_table.description with | some r => r | none => "")
           else yt.description)
      ∧ (merge_table bq_table (some yt) rdc).meta = yt.meta
      ∧ (merge_table bq_table (some yt) rdc).tests = yt.tests)
    ∧ ((merge_sources bq_tables (some ys) source_name project_id dataset_id rdt rdc2).description
        = ys.description
      ∧ (merge_sources bq_tables (some ys) source_name project_id dataset_id rdt rdc2).meta
        = ys.meta) := by
  refine ⟨⟨?_, rfl, rfl⟩,
    merge_sources_description bq_tables ys source_name project_id dataset_id rdt rdc2,
    merge_sources_meta bq_tables ys source_name project_id dataset_id rdt rdc2⟩
  simp [merge_table, pyOrStr, pyOrOptStr_empty]

/-- C6 (confirmed): table matching is keyed by the document table name
equaling the remote table id (the identifier override is never consulted),
and a matched table keeps both its document name and its identifier
unchanged. -/
theorem claimC6 (bq_tables : List BigQueryTable) (ys : DbtSource)
    (source_name project_id dataset_id : String) (rdt rdc : Bool)
    (i : Nat) (h : i < bq_tables.length) :
    ((merge_sources bq_tables (some ys) source_name project_id dataset_id rdt rdc).tables)[i]?
      = some (merge_table (bq_tables.get ⟨i, h⟩)
          (lookupLastBy (fun t => t.name == (bq_tables.get ⟨i, h⟩).table_id) ys.tables) rdc)
    ∧ ∀ yt,
        lookupLastBy (fun t => t.name == (bq_tables.get ⟨i, h⟩).table_id) ys.tables = some yt →
        (merge_table (bq_tables.get ⟨i, h⟩) (some yt) rdc).name = yt.name
        ∧ (merge_table (bq_tables.get ⟨i, h⟩) (some yt) rdc).identifier = yt.identifier := by
  constructor
  · rw [merge_sources_tables_eq, List.getElem?_append]
    simp only [List.length_map, h, if_true]
    rw [List.getElem?_map, List.getElem?_eq_getElem h]
    rfl
  · intro yt hyt
    exact ⟨rfl, rfl⟩

def wBqTablesC6 : List BigQueryTable :=
  [{ table_id := "t1", description := none, columns := [] }]

def wSourceC6 : DbtSource :=
  { name := "s", database := none, schema_name := some "d", description := ""
    tables := [{ name := "t1", identifier := some "legacy_t1", description := "keep"
                 columns := [], meta := none, tests := none }]
    meta := none }

theorem claimC6_witness :
    ((merge_sources wBqTablesC6 (some wSourceC6) "s" "p" "d" false false).tables)[0]?.map
        (fun t => (t.name, t.identifier))
      = some ("t1", some "legacy_t1") := by
  have h := claimC6 wBqTablesC6 wSourceC6 "s" "p" "d" false false 0 (by decide)
  rw [h.1]
  decide

/-- C7 (confirmed): every source failing the name-or-schema match is passed
through with its values unchanged, in original relative order, followed by
the single merged source at the end; the version is the existing document's
(2 when no document existed). -/
theorem claimC7 (bq_tables : List BigQueryTable) (yaml_file : Option DbtSourceFile)
    (source_name project_id dataset_id : String) (rdt rdc : Bool) :
    (merge_source_file bq_tables yaml_file source_name project_id dataset_id rdt rdc).version
      = (match yaml_file with | some f => f.version | none => 2)
    ∧ (merge_source_file bq_tables yaml_file source_name project_id dataset_id rdt rdc).sources
      = (match yaml_file with | some f => f.sources | none => []).filter
          (fun s => !sourceMatches source_name dataset_id s)
        ++ [merge_sources bq_tables
              (lookupLastBy (sourceMatches source_name dataset_id)
                (match yaml_file with | some f => f.sources | none => []))
              source_name project_id dataset_id rdt rdc] := by
  cases yaml_file with
  | none =>
    have hdef : merge_source_file bq_tables none source_name project_id dataset_id rdt rdc
        = merge_source_file bq_tables (some { version := 2, sources := [] })
            source_name project_id dataset_id rdt rdc := rfl
    rw [hdef, merge_source_file_eq]
    exact ⟨rfl, rfl⟩
  | some yf =>
    rw [merge_source_file_eq]
    exact ⟨rfl, rfl⟩

/-- C8 (confirmed): serialization emits `version` then `sources`; within each
level the emitted keys are a subsequence of the fixed key order, the required
keys are always present, and each optional key is present exactly when its
field is set and non-empty (so an unset field is always omitted). -/
theorem claimC8 (sf : DbtSourceFile) (src : DbtSource) (t : DbtTable) (c : DbtColumn) :
    keysOf (serialize_source_file sf) = [YKey.version, YKey.sources]
    ∧ (List.Sublist (keysOf (serializeSource src))
        [YKey.name, YKey.database, YKey.schema, YKey.description, YKey.meta, YKey.tables]
      ∧ YKey.name ∈ keysOf (serializeSource src)
      ∧ YKey.tables ∈ keysOf (serializeSource src)
      ∧ (YKey.database ∈ keysOf (serializeSource src)
          ↔ (src.database ≠ none ∧ src.database ≠ some ""))
      ∧ (YKey.schema ∈ keysOf (serializeSource src)
          ↔ (src.schema_name ≠ none ∧ src.schema_name ≠ some ""))
      ∧ (YKey.description ∈ keysOf (serializeSource src) ↔ src.description ≠ "")
      ∧ (YKey.meta ∈ keysOf (serializeSource src)
          ↔ (src.meta ≠ none ∧ src.meta ≠ some ([] : MetaMap))))
    ∧ (List.Sublist (keysOf (serializeTable t))
        [YKey.name, YKey.identifier, YKey.description, YKey.meta, YKey.tests, YKey.columns]
      ∧ YKey.name ∈ keysOf (serializeTable t)
      ∧ (YKey.identifier ∈ keysOf (serializeTable t)
          ↔ (t.identifier ≠ none ∧ t.identifier ≠ some ""))
      ∧ (YKey.description ∈ keysOf (serializeTable t) ↔ t.description ≠ "")
      ∧ (YKey.meta ∈ keysOf (serializeTable t)
          ↔ (t.meta ≠ none ∧ t.meta ≠ some ([] : MetaMap)))
      ∧ (YKey.tests ∈ keysOf (serializeTable t)
          ↔ (t.tests ≠ none ∧ t.tests ≠ some ([] : TestList)))
      ∧ (YKey.columns ∈ keysOf (serializeTable t) ↔ t.columns ≠ []))
    ∧ (List.Sublist (keysOf (serializeColumn c))
        [YKey.name, YKey.data_type, YKey.description, YKey.meta, YKey.tests]
      ∧ YKey.name ∈ keysOf (serializeColumn c)
      ∧ (YKey.data_type ∈ keysOf (serializeColumn c)
          ↔ (c.data_type ≠ none ∧ c.data_type ≠ some ""))
      ∧ (YKey.description ∈ keysOf (serializeColumn c) ↔ c.description ≠ "")
      ∧ (YKey.meta ∈ keysOf (serializeColumn c)
          ↔ (c.meta ≠ none ∧ c.meta ≠ some ([] : MetaMap)))
      ∧ (YKey.tests ∈ keysOf (serializeColumn c)
          ↔ (c.tests ≠ none ∧ c.tests ≠ some ([] : TestList)))) :=
  ⟨keysOf_serialize_source_file sf, serializeSource_keys_spec src,
   serializeTable_keys_spec t, serializeColumn_keys_spec c⟩

/-- C9 (confirmed): the apply command's update path maps its two flags as
`prune_absent_tables = pruneAbsent` and
`prune_absent_columns = pruneAbsent AND syncColumns`, spelled out on all four
flag combinations (arguments of `applyUpdate` are sync_columns then
remove_deleted). -/
theorem claimC9 (bq_dataset_tables : List BigQueryTable)
    (existing_file : Option DbtSourceFile) (project_id schema : String) :
    applyUpdate bq_dataset_tables existing_file project_id schema true true
        = merge_source_file bq_dataset_tables existing_file
            (applySourceName existing_file schema) project_id schema true true
    ∧ applyUpdate bq_dataset_tables existing_file project_id schema false true
        = merge_source_file bq_dataset_tables existing_file
            (applySourceName existing_file schema) project_id schema true false
    ∧ applyUpdate bq_dataset_tables existing_file project_id schema true false
        = merge_source_file bq_dataset_tables existing_file
            (applySourceName existing_file schema) project_id schema false false
    ∧ applyUpdate bq_dataset_tables existing_file project_id schema false false
        = merge_source_file bq_dataset_tables existing_file
            (applySourceName existing_file schema) project_id schema false false :=
  ⟨rfl, rfl, rfl, rfl⟩

/-- C10 (confirmed): on documents whose optional fields are unset or
non-empty, parsing the serialized form restores the document exactly; an
empty-string data type, empty metadata mapping or empty tests list is
normalized to unset by the round trip. -/
theorem claimC10 :
    (∀ f : DbtSourceFile, wfFile f = true →
        parse_source_file (serialize_source_file f) = some f)
    ∧ parseColumn (serializeColumn
        { name := "c", data_type := some "", description := ""
          meta := some ([] : MetaMap), tests := some ([] : TestList) })
      = some { name := "c", data_type := none, description := "", meta := none,
               tests := none } :=
  ⟨parse_serialize_file, rfl⟩

def wFileC10 : DbtSourceFile :=
  { version := 2
    sources := [
      { name := "s", database := some "p", schema_name := some "d", description := "src"
        tables := [
          { name := "t", identifier := some "tid", description := ""
            columns := [
              { name := "id", data_type := some "INT64", description := "pk"
                meta := some [("a", "b")], tests := some ["not_null"] }]
            meta := none, tests := some ["rel"] },
          { name := "t2", identifier := none, description := ""
            columns := [], meta := none, tests := none }]
        meta := none }] }

theorem claimC10_witness :
    wfFile wFileC10 = true
    ∧ parse_source_file (serialize_source_file wFileC10) = some wFileC10 :=
  ⟨by decide, claimC10.1 wFileC10 (by decide)⟩

end DbtBqSourcegen
